import Mathlib

/-!
Verification of the kokostream audio/playback pipeline.

Shallow embedding of the repository's core modules:
* utils/audio: base64 decoding, raw 16-bit PCM decoding, the AmbientGenerator
  oscillator-graph synthesizer (event-level model of its timeouts and node list);
* components/StoryPlayer: the scene playback scheduler (playScene / advanceNext /
  mute handling) as a discrete-event state machine;
* components/StoryEditor: updateSceneTransition and handleSave;
* components/VideoExporter: the per-scene render/progress loop;
* App.handleLoadDraft: draft restoration with per-scene decode fallback.

Machine numbers are modelled as Nat / Int / Rat with explicit wrapping where the
source depends on it; fallible operations return Option.
-/

set_option maxHeartbeats 1000000

namespace Kokostream

/-! ## Base64 (utils/audio decodeBase64 and its inverse)

The source decodes via the platform builtin atob, then copies each character
code of the resulting binary string into a byte array; since every character of
an atob result is its byte value, decodeBase64 is exactly base64 decoding.
-/

def base64Chars : List Char :=
  "ABCDEFGHIJKLMNOPQRSTUVWXYZabcdefghijklmnopqrstuvwxyz0123456789+/".toList

def b64Char (n : Nat) : Char := base64Chars.getD n '?'

def b64Index (c : Char) : Nat := base64Chars.indexOf c

def isB64Char (c : Char) : Bool := base64Chars.contains c

/-- Platform atob: groups of four base64 symbols decode to three bytes, with
trailing padding producing one or two bytes; invalid characters, misplaced
padding or a length that is not a multiple of four reject the input. -/
def atob : List Char → Option (List Nat)
  | [] => some []
  | c0 :: c1 :: c2 :: c3 :: rest =>
    if isB64Char c0 && isB64Char c1 then
      if c2 = '=' then
        if c3 = '=' ∧ rest = [] then
          some [b64Index c0 * 4 + b64Index c1 / 16]
        else none
      else if isB64Char c2 then
        if c3 = '=' then
          if rest = [] then
            some [b64Index c0 * 4 + b64Index c1 / 16,
                  b64Index c1 % 16 * 16 + b64Index c2 / 4]
          else none
        else if isB64Char c3 then
          (atob rest).map (fun bs =>
            (b64Index c0 * 4 + b64Index c1 / 16) ::
            (b64Index c1 % 16 * 16 + b64Index c2 / 4) ::
            (b64Index c2 % 4 * 64 + b64Index c3) :: bs)
        else none
      else none
    else none
  | _ => none

/-- utils/audio decodeBase64: atob followed by a charCodeAt copy into a byte
array, i.e. base64 decoding of the payload (None models the thrown
InvalidCharacterError on malformed input). -/
def decodeBase64 (s : List Char) : Option (List Nat) := atob s

/-- Standard base64 encoding of a byte list (the producer side of the raw
narration payload; used to state the round-trip property). -/
def encodeBase64 : List Nat → List Char
  | [] => []
  | [a] => [b64Char (a / 4), b64Char (a % 4 * 16), '=', '=']
  | [a, b] => [b64Char (a / 4), b64Char (a % 4 * 16 + b / 16), b64Char (b % 16 * 4), '=']
  | a :: b :: c :: rest =>
    b64Char (a / 4) :: b64Char (a % 4 * 16 + b / 16) ::
    b64Char (b % 16 * 4 + c / 64) :: b64Char (c % 64) :: encodeBase64 rest

/-! ## 16-bit PCM decoding (utils/audio decodeAudioData, mono default) -/

/-- One little-endian signed 16-bit value from two bytes (Int16Array element). -/
def toInt16 (lo hi : Nat) : Int :=
  if hi < 128 then (lo + 256 * hi : Int) else (lo + 256 * hi : Int) - 65536

/-- View of a byte array as an Int16Array: the constructor throws when the
byte length is odd (modelled as none). -/
def bytesToInt16 : List Nat → Option (List Int)
  | [] => some []
  | [_] => none
  | lo :: hi :: rest => (bytesToInt16 rest).map (fun vs => toInt16 lo hi :: vs)

/-- utils/audio decodeAudioData with the default 24000 Hz mono layout: each
Int16 sample becomes the float sample value divided by 32768. -/
def decodeAudioDataMono (bytes : List Nat) : Option (List ℚ) :=
  (bytesToInt16 bytes).map (List.map (fun v : Int => (v : ℚ) / 32768))

/-- Little-endian encoding of one signed 16-bit sample (producer side). -/
def int16ToBytesLE (s : Int) : List Nat :=
  [(s % 65536).toNat % 256, (s % 65536).toNat / 256]

/-- Little-endian encoding of a known 16-bit sample list (producer side). -/
def encodeSamples (ss : List Int) : List Nat := (ss.map int16ToBytesLE).flatten

/-! ### Round-trip lemmas -/

theorem b64Index_b64Char (n : Nat) (h : n < 64) : b64Index (b64Char n) = n := by
  have H : ∀ m : Fin 64, b64Index (b64Char m.1) = m.1 := by decide
  exact H ⟨n, h⟩

theorem b64Char_ne_pad (n : Nat) (h : n < 64) : b64Char n ≠ '=' := by
  have H : ∀ m : Fin 64, b64Char m.1 ≠ '=' := by decide
  exact H ⟨n, h⟩

theorem isB64Char_b64Char (n : Nat) (h : n < 64) : isB64Char (b64Char n) = true := by
  have H : ∀ m : Fin 64, isB64Char (b64Char m.1) = true := by decide
  exact H ⟨n, h⟩

theorem atob_cons (c0 c1 c2 c3 : Char) (rest : List Char) :
    atob (c0 :: c1 :: c2 :: c3 :: rest) =
    if isB64Char c0 && isB64Char c1 then
      if c2 = '=' then
        if c3 = '=' ∧ rest = [] then
          some [b64Index c0 * 4 + b64Index c1 / 16]
        else none
      else if isB64Char c2 then
        if c3 = '=' then
          if rest = [] then
            some [b64Index c0 * 4 + b64Index c1 / 16,
                  b64Index c1 % 16 * 16 + b64Index c2 / 4]
          else none
        else if isB64Char c3 then
          (atob rest).map (fun bs =>
            (b64Index c0 * 4 + b64Index c1 / 16) ::
            (b64Index c1 % 16 * 16 + b64Index c2 / 4) ::
            (b64Index c2 % 4 * 64 + b64Index c3) :: bs)
        else none
      else none
    else none := rfl

theorem atob_encodeBase64 :
    ∀ bs : List Nat, (∀ b ∈ bs, b < 256) → atob (encodeBase64 bs) = some bs := by
  intro bs
  induction bs using encodeBase64.induct with
  | case1 =>
    intro _
    rfl
  | case2 a =>
    intro h
    have ha : a < 256 := h a (by simp)
    have h0 : a / 4 < 64 := by omega
    have h1 : a % 4 * 16 < 64 := by omega
    rw [show encodeBase64 [a] = [b64Char (a / 4), b64Char (a % 4 * 16), '=', '='] from rfl,
      atob_cons]
    simp only [isB64Char_b64Char (a / 4) h0, isB64Char_b64Char (a % 4 * 16) h1,
      Bool.and_self, if_true, b64Char_ne_pad (a % 4 * 16) h1, reduceIte,
      b64Index_b64Char (a / 4) h0, b64Index_b64Char (a % 4 * 16) h1]
    rw [if_pos (⟨trivial, trivial⟩ : True ∧ True)]
    simp only [Option.some.injEq, List.cons.injEq, and_true]
    omega
  | case3 a b =>
    intro h
    have ha : a < 256 := h a (by simp)
    have hb : b < 256 := h b (by simp)
    have h0 : a / 4 < 64 := by omega
    have h1 : a % 4 * 16 + b / 16 < 64 := by omega
    have h2 : b % 16 * 4 < 64 := by omega
    rw [show encodeBase64 [a, b] =
      [b64Char (a / 4), b64Char (a % 4 * 16 + b / 16), b64Char (b % 16 * 4), '='] from rfl,
      atob_cons]
    simp only [isB64Char_b64Char (a / 4) h0, isB64Char_b64Char (a % 4 * 16 + b / 16) h1,
      isB64Char_b64Char (b % 16 * 4) h2, Bool.and_self, if_true,
      b64Char_ne_pad (a % 4 * 16 + b / 16) h1, b64Char_ne_pad (b % 16 * 4) h2,
      if_false, reduceIte,
      b64Index_b64Char (a / 4) h0, b64Index_b64Char (a % 4 * 16 + b / 16) h1,
      b64Index_b64Char (b % 16 * 4) h2]
    simp only [Option.some.injEq, List.cons.injEq, and_true]
    omega
  | case4 a b c rest ih =>
    intro h
    have ha : a < 256 := h a (by simp)
    have hb : b < 256 := h b (by simp)
    have hc : c < 256 := h c (by simp)
    have hrest : ∀ x ∈ rest, x < 256 := by
      intro x hx
      exact h x (by simp [hx])
    have h0 : a / 4 < 64 := by omega
    have h1 : a % 4 * 16 + b / 16 < 64 := by omega
    have h2 : b % 16 * 4 + c / 64 < 64 := by omega
    have h3 : c % 64 < 64 := by omega
    rw [show encodeBase64 (a :: b :: c :: rest) =
      b64Char (a / 4) :: b64Char (a % 4 * 16 + b / 16) ::
      b64Char (b % 16 * 4 + c / 64) :: b64Char (c % 64) :: encodeBase64 rest from rfl,
      atob_cons]
    simp only [isB64Char_b64Char (a / 4) h0, isB64Char_b64Char (a % 4 * 16 + b / 16) h1,
      isB64Char_b64Char (b % 16 * 4 + c / 64) h2, isB64Char_b64Char (c % 64) h3,
      Bool.and_self, if_true,
      b64Char_ne_pad (a % 4 * 16 + b / 16) h1,
      b64Char_ne_pad (b % 16 * 4 + c / 64) h2,
      b64Char_ne_pad (c % 64) h3, if_false, reduceIte]
    rw [ih hrest]
    simp only [Option.map_some', Option.some.injEq, List.cons.injEq,
      b64Index_b64Char (a / 4) h0, b64Index_b64Char (a % 4 * 16 + b / 16) h1,
      b64Index_b64Char (b % 16 * 4 + c / 64) h2, b64Index_b64Char (c % 64) h3, and_true]
    omega

theorem toInt16_int16ToBytesLE (s : Int) (h1 : -32768 ≤ s) (h2 : s < 32768) :
    toInt16 ((s % 65536).toNat % 256) ((s % 65536).toNat / 256) = s := by
  unfold toInt16
  split <;> omega

theorem encodeSamples_lt_256 :
    ∀ ss : List Int, ∀ b ∈ encodeSamples ss, b < 256 := by
  intro ss
  induction ss with
  | nil => intro b hb; simp [encodeSamples] at hb
  | cons s tl ih =>
    intro b hb
    simp only [encodeSamples, List.map_cons, List.flatten_cons, List.mem_append] at hb
    rcases hb with hb | hb
    · simp only [int16ToBytesLE, List.mem_cons, List.mem_singleton] at hb
      have hlt : (s % 65536).toNat < 65536 := by omega
      rcases hb with rfl | h
      · omega
      · rcases h with rfl | h
        · omega
        · simp at h
    · exact ih b hb

theorem bytesToInt16_encodeSamples :
    ∀ ss : List Int, (∀ s ∈ ss, -32768 ≤ s ∧ s < 32768) →
      bytesToInt16 (encodeSamples ss) = some ss := by
  intro ss
  induction ss with
  | nil => intro _; rfl
  | cons s tl ih =>
    intro h
    have hs := h s (by simp)
    have htl : ∀ x ∈ tl, -32768 ≤ x ∧ x < 32768 := fun x hx => h x (by simp [hx])
    show bytesToInt16 ((s % 65536).toNat % 256 :: (s % 65536).toNat / 256 ::
      encodeSamples tl) = _
    rw [show ∀ lo hi rest, bytesToInt16 (lo :: hi :: rest)
        = (bytesToInt16 rest).map (fun vs => toInt16 lo hi :: vs) from fun _ _ _ => rfl]
    rw [ih htl]
    simp only [Option.map_some']
    rw [toInt16_int16ToBytesLE s hs.1 hs.2]

theorem decode_encode_aux (ss : List Int)
    (h : ∀ s ∈ ss, -32768 ≤ s ∧ s < 32768) :
    (decodeBase64 (encodeBase64 (encodeSamples ss))).bind decodeAudioDataMono
      = some (ss.map (fun s : Int => (s : ℚ) / 32768)) := by
  rw [decodeBase64, atob_encodeBase64 _ (encodeSamples_lt_256 ss), Option.some_bind]
  rw [decodeAudioDataMono, bytesToInt16_encodeSamples ss h]
  rfl

/-- Claim C2: decoding a raw narration payload (base64 to bytes via
decodeBase64, then decodeAudioData at the default 24000 Hz mono layout) yields
per-channel samples equal to the 16-bit little-endian PCM values divided by
32768; encoding known 16-bit samples and decoding them recovers each original
sample divided by 32768 exactly (hence within floating-point tolerance). -/
theorem narration_decode_roundtrip (ss : List Int)
    (h : ∀ s ∈ ss, -32768 ≤ s ∧ s < 32768) :
    (decodeBase64 (encodeBase64 (encodeSamples ss))).bind decodeAudioDataMono
      = some (ss.map (fun s : Int => (s : ℚ) / 32768)) :=
  decode_encode_aux ss h

/-- Witness for C2 at a concrete sample list covering both extremes. -/
theorem narration_decode_roundtrip_witness :
    (∀ s ∈ ([0, 1000, -32768, 32767, -1] : List Int), -32768 ≤ s ∧ s < 32768) ∧
    (decodeBase64 (encodeBase64 (encodeSamples [0, 1000, -32768, 32767, -1]))).bind
        decodeAudioDataMono
      = some (([0, 1000, -32768, 32767, -1] : List Int).map (fun s : Int => (s : ℚ) / 32768)) :=
  ⟨by decide, narration_decode_roundtrip [0, 1000, -32768, 32767, -1] (by decide)⟩

/-! ## AmbientGenerator (utils/audio): event-level model

State of the synthesizer plus the timeout queue of its stop() teardowns.  The
decisive source detail: stop() only SCHEDULES the teardown (setTimeout, 1100
ms) and the timeout closure reads this.nodes at fire time, while play() calls
stop() synchronously and builds the new graph immediately without awaiting
that timer.
-/

inductive NodeKind
  | oscillator
  | gainNode
  | biquadFilter
  deriving DecidableEq

def isOsc : NodeKind → Bool
  | .oscillator => true
  | _ => false

structure ANode where
  id : ℕ
  kind : NodeKind
  epoch : ℕ          -- ghost: which play() call created the node
  freqCentiHz : ℕ    -- oscillator frequency in centihertz (0 for others)
  startDelayMs : ℕ   -- staggered start offset
  started : Bool
  stopped : Bool
  connected : Bool
  stopCount : ℕ      -- ghost: how many times node.stop() took effect
  deriving DecidableEq

structure AmbState where
  time : ℕ                     -- ms
  nextId : ℕ
  epoch : ℕ
  registry : List ANode        -- every node created on the shared context
  nodesList : List ℕ           -- this.nodes (ids, in push order)
  rampLog : List (ℕ × ℕ × ℚ)   -- master-gain ramps: (start ms, end ms, target)
  pending : List ℕ             -- fire times of scheduled stop() teardowns
  deriving DecidableEq

def initAmb : AmbState := ⟨0, 0, 0, [], [], [], []⟩

/-- One node's teardown step: try { if oscillator then stop(); disconnect() }
catch {} — stop() on a never-started oscillator throws (skipping the
disconnect, error swallowed); a second stop()/disconnect() is tolerated. -/
def applyTeardown (n : ANode) : ANode :=
  if isOsc n.kind then
    if n.started then
      { n with stopped := true,
               stopCount := n.stopCount + (if n.stopped then 0 else 1),
               connected := false }
    else n
  else { n with connected := false }

/-- Body of the setTimeout scheduled by stop(): iterates the CURRENT
this.nodes array (the closure reads the field at fire time), then clears it. -/
def fireTeardown (s : AmbState) : AmbState :=
  { s with
    registry := s.registry.map (fun n => if n.id ∈ s.nodesList then applyTeardown n else n),
    nodesList := [] }

/-- AmbientGenerator.stop(): cancels scheduled gain values, sets the current
value, ramps master gain linearly to 0 over 1 second, and schedules the node
teardown 1100 ms out. -/
def stopAmb (s : AmbState) : AmbState :=
  { s with rampLog := s.rampLog ++ [(s.time, s.time + 1000, 0)],
           pending := s.pending ++ [s.time + 1100] }

/-- AmbientGenerator.createOscillator: allocates an oscillator and a per-voice
0.15 gain, optionally a 400 Hz low-pass filter, and — when both filter and lfo
are requested — a 0.5 Hz modulator oscillator with its 200-depth gain;
connects the chain into the master gain, starts the oscillators, and pushes
the created nodes into this.nodes in source push order (lfo oscillator, lfo
gain, oscillator, voice gain, filter). -/
def createOscillator (freqCentiHz delayMs : ℕ) (filter lfo : Bool) (s : AmbState) : AmbState :=
  let e := s.epoch
  let osc : ANode := ⟨s.nextId, .oscillator, e, freqCentiHz, delayMs, true, false, true, 0⟩
  let gain : ANode := ⟨s.nextId + 1, .gainNode, e, 0, 0, false, false, true, 0⟩
  if filter then
    let biquad : ANode := ⟨s.nextId + 2, .biquadFilter, e, 40000, 0, false, false, true, 0⟩
    if lfo then
      let lfoOsc : ANode := ⟨s.nextId + 3, .oscillator, e, 50, 0, true, false, true, 0⟩
      let lfoGain : ANode := ⟨s.nextId + 4, .gainNode, e, 0, 0, false, false, true, 0⟩
      { s with nextId := s.nextId + 5,
               registry := s.registry ++ [osc, gain, biquad, lfoOsc, lfoGain],
               nodesList := s.nodesList ++ [lfoOsc.id, lfoGain.id, osc.id, gain.id, biquad.id] }
    else
      { s with nextId := s.nextId + 3,
               registry := s.registry ++ [osc, gain, biquad],
               nodesList := s.nodesList ++ [osc.id, gain.id, biquad.id] }
  else
    { s with nextId := s.nextId + 2,
             registry := s.registry ++ [osc, gain],
             nodesList := s.nodesList ++ [osc.id, gain.id] }

inductive Mood
  | noMood
  | ethereal
  | suspense
  | scifi
  deriving DecidableEq

/-- AmbientGenerator.play(mood): synchronously calls stop() (which only
schedules its teardown — the fade timer is NOT awaited), returns for the
"none" mood, otherwise ramps master gain 0 → 0.08 over 2 s and builds the new
mood's oscillator recipe immediately. -/
def playAmb (mood : Mood) (s0 : AmbState) : AmbState :=
  let s := stopAmb s0
  match mood with
  | .noMood => s
  | .ethereal =>
    let s := { s with epoch := s.epoch + 1,
                      rampLog := s.rampLog ++ [(s.time, s.time + 2000, 8/100)] }
    createOscillator 41530 100 true false
      (createOscillator 32963 200 false false
        (createOscillator 27718 100 false false
          (createOscillator 22000 0 false false s)))
  | .suspense =>
    let s := { s with epoch := s.epoch + 1,
                      rampLog := s.rampLog ++ [(s.time, s.time + 2000, 8/100)] }
    createOscillator 11650 100 false false
      (createOscillator 11000 0 false false
        (createOscillator 5500 0 true false s))
  | .scifi =>
    let s := { s with epoch := s.epoch + 1,
                      rampLog := s.rampLog ++ [(s.time, s.time + 2000, 8/100)] }
    createOscillator 22000 0 true false
      (createOscillator 11000 0 true true s)

/-- Fire every pending teardown due at or before t, in schedule order (the
queue argument is the snapshot of s.pending; a teardown schedules nothing). -/
def runPending : List ℕ → ℕ → AmbState → AmbState
  | [], t, s => { s with time := t }
  | ft :: rest, t, s =>
    if ft ≤ t then runPending rest t (fireTeardown { s with time := ft, pending := rest })
    else { s with time := t }

def advanceTime (t : ℕ) (s : AmbState) : AmbState := runPending s.pending t s

/-- Nodes of the given play-epoch that are still connected and not stopped. -/
def aliveNodes (s : AmbState) (e : ℕ) : ℕ :=
  (s.registry.filter (fun n => n.epoch == e && n.connected && !n.stopped)).length

/-- All connected, unstopped nodes of the synthesizer, any epoch. -/
def activeNodeCount (s : AmbState) : ℕ :=
  (s.registry.filter (fun n => n.connected && !n.stopped)).length

/-- Claim C1 (refuted by the code): play("ethereal") immediately followed by
play("suspense") leaves BOTH oscillator graphs alive right after the second
call (the new build precedes the old teardown — nothing awaits the fade
timer), and after the fade timeouts settle the first stop()'s teardown has
stopped and disconnected the NEW mood's nodes as well (its closure reads
this.nodes at fire time), leaving zero active mixing subgraphs instead of
exactly one.  Even a single play() schedules the destruction of its own
graph. -/
theorem ambient_play_play_kills_new_graph :
    (0 < aliveNodes (playAmb .suspense (playAmb .ethereal initAmb)) 1
      ∧ 0 < aliveNodes (playAmb .suspense (playAmb .ethereal initAmb)) 2)
    ∧ activeNodeCount (advanceTime 2000 (playAmb .suspense (playAmb .ethereal initAmb))) = 0
    ∧ (advanceTime 2000 (playAmb .suspense (playAmb .ethereal initAmb))).nodesList = []
    ∧ activeNodeCount (advanceTime 2000 (playAmb .ethereal initAmb)) = 0 := by
  decide

theorem applyTeardown_id (n : ANode) : (applyTeardown n).id = n.id := by
  unfold applyTeardown
  split
  · split <;> rfl
  · rfl

theorem applyTeardown_stopCount_le (n : ANode)
    (h : n.stopCount ≤ 1 ∧ (n.stopped = false → n.stopCount = 0)) :
    (applyTeardown n).stopCount ≤ 1 := by
  unfold applyTeardown
  split
  · split
    · rcases h with ⟨h1, h2⟩
      by_cases hst : n.stopped
      · simp [hst]
        omega
      · simp only [Bool.not_eq_true] at hst
        simp [hst, h2 hst]
    · exact h.1
  · exact h.1

theorem applyTeardown_spec (m : ANode) (hst : isOsc m.kind = true → m.started = true) :
    (applyTeardown m).connected = false
    ∧ (isOsc (applyTeardown m).kind = true → (applyTeardown m).stopped = true) := by
  unfold applyTeardown
  by_cases hk : isOsc m.kind = true
  · have hs := hst hk
    simp [hk, hs]
  · simp only [Bool.not_eq_true] at hk
    simp [hk]

theorem runPending_nil (t : ℕ) (s : AmbState) : runPending [] t s = { s with time := t } := rfl

theorem runPending_cons_le (ft : ℕ) (rest : List ℕ) (t : ℕ) (s : AmbState) (h : ft ≤ t) :
    runPending (ft :: rest) t s
      = runPending rest t (fireTeardown { s with time := ft, pending := rest }) := by
  simp only [runPending]
  rw [if_pos h]

/-- A concrete playing synthesizer state with no pending timers (one running
oscillator voice routed through its gain), used to witness the stop() claim. -/
def ambPlayingState : AmbState :=
  { time := 0, nextId := 2, epoch := 1,
    registry := [⟨0, .oscillator, 1, 22000, 0, true, false, true, 0⟩,
                 ⟨1, .gainNode, 1, 0, 0, false, false, true, 0⟩],
    nodesList := [0, 1], rampLog := [], pending := [] }

/-- Claim C6: stop() ramps master gain to 0 over exactly 1 second and schedules
the node teardown 1100 ms out — strictly after the fade completes; when that
timeout fires it stops and disconnects every node in the current mood's list
(all of whose oscillators were started) and clears the list; a second stop()
in succession performs no duplicate teardown and propagates no error (every
node ends stopped at most once — the per-node try/catch swallows node-state
races); with nothing playing the teardown is a no-op on the nodes while the
gain ramp is still applied. -/
theorem ambient_stop_spec (s : AmbState)
    (hp : s.pending = [])
    (hstart : ∀ n ∈ s.registry, n.id ∈ s.nodesList → isOsc n.kind = true → n.started = true)
    (hcount : ∀ n ∈ s.registry, n.stopCount ≤ 1 ∧ (n.stopped = false → n.stopCount = 0)) :
    (stopAmb s).rampLog = s.rampLog ++ [(s.time, s.time + 1000, 0)]
    ∧ (stopAmb s).pending = [s.time + 1100]
    ∧ s.time + 1000 < s.time + 1100
    ∧ (advanceTime (s.time + 1100) (stopAmb s)).nodesList = []
    ∧ (∀ n ∈ (advanceTime (s.time + 1100) (stopAmb s)).registry,
         n.id ∈ s.nodesList → n.connected = false ∧ (isOsc n.kind = true → n.stopped = true))
    ∧ (advanceTime (s.time + 1100) (stopAmb (stopAmb s))).nodesList = []
    ∧ (∀ n ∈ (advanceTime (s.time + 1100) (stopAmb (stopAmb s))).registry, n.stopCount ≤ 1)
    ∧ (s.nodesList = [] → (advanceTime (s.time + 1100) (stopAmb s)).registry = s.registry) := by
  have hs1 : (stopAmb s).pending = [s.time + 1100] := by
    simp [stopAmb, hp]
  have hs2 : (stopAmb (stopAmb s)).pending = [s.time + 1100, s.time + 1100] := by
    simp [stopAmb, hp]
  have hrun1 : advanceTime (s.time + 1100) (stopAmb s)
      = { s with time := s.time + 1100,
                 rampLog := s.rampLog ++ [(s.time, s.time + 1000, 0)],
                 pending := [],
                 registry := s.registry.map
                   (fun n => if n.id ∈ s.nodesList then applyTeardown n else n),
                 nodesList := [] } := by
    rw [advanceTime, hs1, runPending_cons_le _ _ _ _ (le_refl _), runPending_nil]
    rfl
  have hrun2reg : (advanceTime (s.time + 1100) (stopAmb (stopAmb s))).registry
        = s.registry.map (fun n => if n.id ∈ s.nodesList then applyTeardown n else n)
      ∧ (advanceTime (s.time + 1100) (stopAmb (stopAmb s))).nodesList = [] := by
    rw [advanceTime, hs2, runPending_cons_le _ _ _ _ (le_refl _),
        runPending_cons_le _ _ _ _ (le_refl _), runPending_nil]
    constructor <;> simp [fireTeardown, stopAmb, Function.comp]
  refine ⟨rfl, hs1, by omega, ?_, ?_, hrun2reg.2, ?_, ?_⟩
  · rw [hrun1]
  · rw [hrun1]
    intro n hn hid
    rcases List.mem_map.1 hn with ⟨m, hm, rfl⟩
    by_cases hmem : m.id ∈ s.nodesList
    · rw [if_pos hmem] at hid ⊢
      exact applyTeardown_spec m (hstart m hm hmem)
    · rw [if_neg hmem] at hid
      exact absurd hid hmem
  · rw [hrun2reg.1]
    intro n hn
    rcases List.mem_map.1 hn with ⟨m, hm, rfl⟩
    by_cases hmem : m.id ∈ s.nodesList
    · rw [if_pos hmem]
      exact applyTeardown_stopCount_le m (hcount m hm)
    · rw [if_neg hmem]
      exact (hcount m hm).1
  · intro hnil
    rw [hrun1]
    simp [hnil]

/-- Witness for C6: the stop() contract applied to a concrete playing state. -/
theorem ambient_stop_spec_witness :
    (advanceTime 1100 (stopAmb ambPlayingState)).nodesList = []
    ∧ (stopAmb ambPlayingState).rampLog = [(0, 1000, 0)]
    ∧ (∀ n ∈ (advanceTime 1100 (stopAmb (stopAmb ambPlayingState))).registry,
        n.stopCount ≤ 1) :=
  ⟨(ambient_stop_spec ambPlayingState rfl (by decide) (by decide)).2.2.2.1,
   (ambient_stop_spec ambPlayingState rfl (by decide) (by decide)).1,
   (ambient_stop_spec ambPlayingState rfl (by decide) (by decide)).2.2.2.2.2.2.1⟩

/-! ## StoryPlayer scene playback scheduler (components/StoryPlayer)

Discrete-event model: the player state holds the narration source (with the
instant its onended callback fires), the single pending timeout slot
(transitionTimeoutRef) and the observable playback flags; events are processed
in time order.
-/

inductive TType
  | fade
  | slideLeft
  | slideRight
  | zoomIn
  | zoomOut
  | noneT
  deriving DecidableEq

structure TransSettings where
  ttype : TType
  duration : ℤ
  deriving DecidableEq

/-- A scene as the player and editor see it (types.ts Scene, playback-relevant
fields): narration presence/length and the stored transition settings. -/
structure SceneMod where
  hasAudio : Bool
  audioMs : ℕ
  transition : Option TransSettings
  deriving DecidableEq

inductive Dest
  | destination      -- ctx.destination, the interactive output
  | mediaStreamDest  -- the export capture sink
  deriving DecidableEq

structure NarrSrc where
  endTime : ℕ
  sceneIdx : ℕ
  dest : Dest
  deriving DecidableEq

inductive TimerAct
  | advanceFrom (i : ℕ)  -- the 3000 ms no-narration fallback
  | startScene (i : ℕ)   -- the transition half-duration timer
  deriving DecidableEq

inductive Stage
  | enter
  | active
  | exit
  deriving DecidableEq

inductive TraceEv
  | sceneStarted (i : ℕ)
  | exitStarted (i : ℕ)
  | finishedReached
  deriving DecidableEq

structure PState where
  time : ℕ
  idx : ℕ
  playing : Bool
  finished : Bool
  isMuted : Bool
  stage : Stage
  audioSource : Option NarrSrc        -- audioSourceRef and its onended time
  transTimer : Option (ℕ × TimerAct)  -- transitionTimeoutRef
  ambientGain : ℚ
  ambientStopped : Bool
  trace : List (ℕ × TraceEv)
  deriving DecidableEq

/-- JS (x || d) on a possibly-absent number: null/undefined and 0 fall back
to the default, every other value (negatives included) is kept. -/
def jsOrInt (x : Option ℤ) (d : ℤ) : ℤ :=
  match x with
  | none => d
  | some v => if v = 0 then d else v

/-- stopAudio(): clears onended, stops the source (errors swallowed) and
clears the pending transition timeout. -/
def stopAudioP (s : PState) : PState :=
  { s with audioSource := none, transTimer := none }

/-- playScene(index): stop current audio and timers, select the scene, mark
playing, enter then (on the second animation frame, modelled within the same
step) commit the active stage; schedule the 3000 ms fallback advance when the
scene has no narration, otherwise start a fresh narration source connected
directly to ctx.destination whose onended fires after its duration. -/
def playSceneP (story : List SceneMod) (i : ℕ) (s0 : PState) : PState :=
  let s := stopAudioP s0
  let s := { s with idx := i, finished := false, playing := true, stage := Stage.active,
                    trace := s.trace ++ [(s.time, TraceEv.sceneStarted i)] }
  match story[i]? with
  | none => s
  | some sc =>
    if sc.hasAudio then
      { s with audioSource := some ⟨s.time + sc.audioMs, i, Dest.destination⟩ }
    else
      { s with transTimer := some (s.time + 3000, TimerAct.advanceFrom i) }

/-- The delay advanceNext passes to setTimeout: (nextScene.transition?.duration
|| 1000) / 2, clamped at 0 by setTimeout for negative values. -/
def advanceDelayMs (story : List SceneMod) (i : ℕ) : ℕ :=
  (jsOrInt ((story[i+1]?).bind (fun sc => sc.transition.map (fun t => t.duration))) 1000
    / 2).toNat

/-- advanceNext(currentIndex): for a non-final scene set the exit stage and
schedule playScene(i+1) half the next transition duration out; for the final
scene set finished, clear playing and stop the ambient synthesizer. -/
def advanceNextP (story : List SceneMod) (i : ℕ) (s : PState) : PState :=
  if i < story.length - 1 then
    { s with stage := Stage.exit,
             trace := s.trace ++ [(s.time, TraceEv.exitStarted i)],
             transTimer := some (s.time + advanceDelayMs story i, TimerAct.startScene (i + 1)) }
  else
    { s with finished := true, playing := false, ambientStopped := true,
             trace := s.trace ++ [(s.time, TraceEv.finishedReached)] }

/-- The narration onended callback: advances only if playback has not been
stopped in the meantime (isPlayingRef). -/
def fireNarr (story : List SceneMod) (a : NarrSrc) (s0 : PState) : PState :=
  let s := { s0 with time := a.endTime, audioSource := none }
  if s.playing then advanceNextP story a.sceneIdx s else s

/-- A pending timeout fires: either the fallback advance or the delayed
playScene of the next index. -/
def fireTimer (story : List SceneMod) (tm : ℕ × TimerAct) (s0 : PState) : PState :=
  let s := { s0 with time := tm.1, transTimer := none }
  match tm.2 with
  | TimerAct.advanceFrom i => advanceNextP story i s
  | TimerAct.startScene i => playSceneP story i s

/-- Fire the earliest pending event; none when the player is idle. -/
def stepP (story : List SceneMod) (s : PState) : Option PState :=
  match s.audioSource, s.transTimer with
  | none, none => none
  | some a, none => some (fireNarr story a s)
  | none, some tm => some (fireTimer story tm s)
  | some a, some tm =>
    if a.endTime ≤ tm.1 then some (fireNarr story a s) else some (fireTimer story tm s)

def runP (story : List SceneMod) : ℕ → PState → PState
  | 0, s => s
  | fuel + 1, s =>
    match stepP story s with
    | none => s
    | some s2 => runP story fuel s2

def initPlayer : PState :=
  { time := 0, idx := 0, playing := false, finished := false, isMuted := false,
    stage := Stage.active, audioSource := none, transTimer := none,
    ambientGain := 8 / 100, ambientStopped := false, trace := [] }

/-- The C3 scenario story: scene 1 with a 2000 ms narration and the default
(fade, 1000 ms) transition, scene 2 with no narration and nothing stored. -/
def storyC3 : List SceneMod :=
  [⟨true, 2000, some ⟨TType.fade, 1000⟩⟩, ⟨false, 0, none⟩]

/-- Claim C3: for the 2-scene story (scene 1: 2000 ms narration, default fade
1000 ms; scene 2: no narration), playback runs scene 1 for 2000 ms, the exit
stage starts at 2000 ms, scene 2 starts 500 ms later (half the 1000 ms
default applied when the next scene stores no transition), and after the
fixed 3000 ms no-narration fallback — at 5500 ms — finished = true,
playing = false and the ambient synthesizer is stopped. -/
theorem two_scene_timeline :
    (runP storyC3 6 (playSceneP storyC3 0 initPlayer)).trace
      = [(0, TraceEv.sceneStarted 0), (2000, TraceEv.exitStarted 0),
         (2500, TraceEv.sceneStarted 1), (5500, TraceEv.finishedReached)]
    ∧ (runP storyC3 6 (playSceneP storyC3 0 initPlayer)).finished = true
    ∧ (runP storyC3 6 (playSceneP storyC3 0 initPlayer)).playing = false
    ∧ (runP storyC3 6 (playSceneP storyC3 0 initPlayer)).ambientStopped = true := by
  decide

/-! ## StoryEditor (components/StoryEditor) -/

/-- StoryEditor.updateSceneTransition: replaces scene index's transition with
exactly the given {type, duration} — no validation and no clamping. -/
def updateSceneTransition (scenes : List SceneMod) (index : ℕ) (t : TType) (dur : ℤ) :
    List SceneMod :=
  scenes.mapIdx (fun j sc => if j = index then { sc with transition := some ⟨t, dur⟩ } else sc)

/-- Claim C4 counterexample: the editing layer neither rejects nor clamps —
updateSceneTransition stores 7000 ms (beyond the advertised [100, 5000] range)
and -500 ms verbatim into the story. -/
theorem updateSceneTransition_stores_out_of_range :
    ((updateSceneTransition [⟨false, 0, some ⟨TType.fade, 1000⟩⟩] 0 TType.fade 7000)[0]?).map
        (fun sc => sc.transition)
      = some (some ⟨TType.fade, 7000⟩)
    ∧ ¬ (100 ≤ (7000 : ℤ) ∧ (7000 : ℤ) ≤ 5000)
    ∧ ((updateSceneTransition [⟨false, 0, some ⟨TType.fade, 1000⟩⟩] 0
          TType.fade (-500))[0]?).map (fun sc => sc.transition)
      = some (some ⟨TType.fade, -500⟩) := by
  decide

/-- Claim C4 (amended): the editing layer stores out-of-range durations
unvalidated (see the counterexample), but the scheduler is safe for a stored
duration of 0 or a negative value: 0 is falsy so (duration || 1000) restores
the 1000 ms default (500 ms delay), a negative duration produces an
immediately-firing timeout (setTimeout clamps the negative half to 0), the
only division is by the constant 2, and the 2-scene playback run still
reaches finished = true. -/
theorem advance_safe_for_degenerate_durations (d : ℤ) (hd : d ≤ 0) :
    advanceDelayMs
        [⟨true, 2000, some ⟨TType.fade, 1000⟩⟩, ⟨false, 0, some ⟨TType.fade, d⟩⟩] 0
      = (if d = 0 then 500 else 0)
    ∧ (runP [⟨true, 2000, some ⟨TType.fade, 1000⟩⟩, ⟨false, 0, some ⟨TType.fade, d⟩⟩] 6
        (playSceneP [⟨true, 2000, some ⟨TType.fade, 1000⟩⟩, ⟨false, 0, some ⟨TType.fade, d⟩⟩]
          0 initPlayer)).finished = true := by
  by_cases h0 : d = 0
  · subst h0
    constructor
    · decide
    · decide
  · have hneg : d < 0 := lt_of_le_of_ne hd h0
    have hhalf : (d / 2).toNat = 0 := by omega
    constructor
    · simp [advanceDelayMs, jsOrInt, h0, hhalf]
    · simp [runP, stepP, fireNarr, fireTimer, advanceNextP, playSceneP, stopAudioP,
        initPlayer, advanceDelayMs, jsOrInt, h0, hhalf]

/-- Witness for C4 (amended) at the concrete stored duration -500 ms. -/
theorem advance_safe_for_degenerate_durations_witness :
    ((-500 : ℤ) ≤ 0)
    ∧ (advanceDelayMs
        [⟨true, 2000, some ⟨TType.fade, 1000⟩⟩, ⟨false, 0, some ⟨TType.fade, -500⟩⟩] 0
      = (if (-500 : ℤ) = 0 then 500 else 0)
    ∧ (runP [⟨true, 2000, some ⟨TType.fade, 1000⟩⟩, ⟨false, 0, some ⟨TType.fade, -500⟩⟩] 6
        (playSceneP
          [⟨true, 2000, some ⟨TType.fade, 1000⟩⟩, ⟨false, 0, some ⟨TType.fade, -500⟩⟩]
          0 initPlayer)).finished = true) :=
  ⟨by decide, advance_safe_for_degenerate_durations (-500) (by decide)⟩

/-- The isMuted toggle: the button flips the flag and the effect sets the
ambient master gain to 0 when muted and 0.08 when unmuted — nothing else. -/
def toggleMuteP (s : PState) : PState :=
  { s with isMuted := !s.isMuted,
           ambientGain := if !s.isMuted then 0 else 8 / 100 }

/-- Claim C10: toggling mute changes only the mute flag and the ambient
synthesizer's master gain (0 when muted, back to 0.08 when unmuted); the
narration source — which playScene connects directly to ctx.destination, with
no gain node of its own — and all other playback state (index, stage,
finished, playing, timers, trace) are untouched. -/
theorem mute_only_affects_ambient (s : PState) (story : List SceneMod) (i : ℕ) :
    (toggleMuteP s).idx = s.idx
    ∧ (toggleMuteP s).stage = s.stage
    ∧ (toggleMuteP s).finished = s.finished
    ∧ (toggleMuteP s).playing = s.playing
    ∧ (toggleMuteP s).audioSource = s.audioSource
    ∧ (toggleMuteP s).transTimer = s.transTimer
    ∧ (toggleMuteP s).trace = s.trace
    ∧ (toggleMuteP s).ambientStopped = s.ambientStopped
    ∧ (toggleMuteP s).isMuted = !s.isMuted
    ∧ (toggleMuteP s).ambientGain = (if s.isMuted then 8 / 100 else 0)
    ∧ ((playSceneP story i s).audioSource.all (fun a => a.dest == Dest.destination) = true)
    ∧ (toggleMuteP (playSceneP story i s)).audioSource = (playSceneP story i s).audioSource := by
  refine ⟨rfl, rfl, rfl, rfl, rfl, rfl, rfl, rfl, rfl, ?_, ?_, rfl⟩
  · by_cases hm : s.isMuted <;> simp [toggleMuteP, hm]
  · unfold playSceneP stopAudioP
    cases h : story[i]? with
    | none => rfl
    | some sc =>
      cases hsc : sc.hasAudio <;> simp [h, hsc]

/-! ## VideoExporter (components/VideoExporter): per-scene render loop

The render callback computes progress = min(elapsed / sceneDuration, 1) and
reports ((sceneIndex + progress) / totalScenes) * 100.  A scene "completes
normally" when its frame loop runs until the frame that reaches progress 1
(the callback reschedules itself only while progress < 1).
-/

/-- A scene's render run during export: optional narration length in ms and
the elapsed times (ms since the scene's startTime) of its animation frames. -/
structure SceneRun where
  narrMs : Option ℚ
  frames : List ℚ
  deriving DecidableEq

/-- Per-scene duration: Math.max(4000, narrationDuration + 500), with
narrationDuration 0 when the scene has no decoded audio. -/
def sceneDurationMs (narr : Option ℚ) : ℚ := max 4000 (narr.getD 0 + 500)

/-- Intra-scene progress of one frame: Math.min(elapsed / sceneDuration, 1). -/
def frameProgress (dur e : ℚ) : ℚ := min (e / dur) 1

/-- The progress value the render callback reports:
((i + intra-scene progress) / total scenes) * 100. -/
def progressValue (total i : ℕ) (dur e : ℚ) : ℚ :=
  ((i : ℚ) + frameProgress dur e) / (total : ℚ) * 100

/-- Spec formula: (completed scenes + intra-scene progress) / total scenes,
as a percentage. -/
def specProgressPercent (total completed : ℕ) (intra : ℚ) : ℚ :=
  ((completed : ℚ) + intra) / (total : ℚ) * 100

/-- The sequence of reported progress values across an export session,
scene i first. -/
def exportTrace (total : ℕ) : ℕ → List SceneRun → List ℚ
  | _, [] => []
  | i, sr :: rest =>
    sr.frames.map (progressValue total i (sceneDurationMs sr.narrMs))
      ++ exportTrace total (i + 1) rest

theorem sceneDurationMs_pos (narr : Option ℚ) : 0 < sceneDurationMs narr :=
  lt_of_lt_of_le (by norm_num) (le_max_left _ _)

theorem frameProgress_nonneg (dur e : ℚ) (hd : 0 < dur) (he : 0 ≤ e) :
    0 ≤ frameProgress dur e :=
  le_min (div_nonneg he hd.le) zero_le_one

theorem frameProgress_le_one (dur e : ℚ) : frameProgress dur e ≤ 1 :=
  min_le_right _ _

theorem frameProgress_mono (dur : ℚ) (hd : 0 < dur) {e f : ℚ} (h : e ≤ f) :
    frameProgress dur e ≤ frameProgress dur f :=
  min_le_min ((div_le_div_right hd).mpr h) le_rfl

theorem frameProgress_eq_one (dur e : ℚ) (hd : 0 < dur) (h : dur ≤ e) :
    frameProgress dur e = 1 :=
  min_eq_right ((one_le_div hd).mpr h)

theorem progressValue_le (total i : ℕ) (dur e : ℚ) :
    progressValue total i dur e ≤ ((i : ℚ) + 1) / (total : ℚ) * 100 := by
  unfold progressValue
  by_cases htot : (0 : ℚ) < (total : ℚ)
  · refine mul_le_mul_of_nonneg_right ?_ (by norm_num)
    exact (div_le_div_right htot).mpr (by
      have := frameProgress_le_one dur e
      linarith)
  · have h0 : ((total : ℚ)) = 0 := by
      have := Nat.cast_nonneg (α := ℚ) total
      linarith
    simp [h0]

theorem progressValue_ge (total i : ℕ) (dur e : ℚ) (hd : 0 < dur) (he : 0 ≤ e) :
    ((i : ℚ)) / (total : ℚ) * 100 ≤ progressValue total i dur e := by
  unfold progressValue
  by_cases htot : (0 : ℚ) < (total : ℚ)
  · refine mul_le_mul_of_nonneg_right ?_ (by norm_num)
    refine (div_le_div_right htot).mpr ?_
    have := frameProgress_nonneg dur e hd he
    linarith
  · have h0 : ((total : ℚ)) = 0 := by
      have := Nat.cast_nonneg (α := ℚ) total
      linarith
    simp [h0]

theorem exportTrace_props (N : ℕ) :
    ∀ (runs : List SceneRun) (i : ℕ),
      (∀ sr ∈ runs, sr.frames ≠ [] ∧ List.Chain' (· ≤ ·) sr.frames
         ∧ (∀ e ∈ sr.frames, 0 ≤ e)
         ∧ sceneDurationMs sr.narrMs ≤ sr.frames.getLast?.getD 0) →
      List.Chain' (· ≤ ·) (exportTrace N i runs)
      ∧ (∀ x ∈ exportTrace N i runs, ((i : ℚ)) / (N : ℚ) * 100 ≤ x)
      ∧ (∀ x ∈ (exportTrace N i runs).getLast?,
          x = (((i + runs.length : ℕ) : ℚ)) / (N : ℚ) * 100)
      ∧ (runs ≠ [] → exportTrace N i runs ≠ []) := by
  intro runs
  induction runs with
  | nil =>
    intro i _
    refine ⟨List.chain'_nil, ?_, ?_, ?_⟩
    · intro x hx
      simp [exportTrace] at hx
    · intro x hx
      simp [exportTrace] at hx
    · intro h
      exact absurd rfl h
  | cons sr rest ih =>
    intro i hvalid
    obtain ⟨hne, hchain, hnn, hlast⟩ := hvalid sr (by simp)
    have hvrest : ∀ s ∈ rest, s.frames ≠ [] ∧ List.Chain' (· ≤ ·) s.frames
        ∧ (∀ e ∈ s.frames, 0 ≤ e)
        ∧ sceneDurationMs s.narrMs ≤ s.frames.getLast?.getD 0 :=
      fun s hs => hvalid s (by simp [hs])
    obtain ⟨ihChain, ihLB, ihLast, ihNE⟩ := ih (i + 1) hvrest
    have hDpos : 0 < sceneDurationMs sr.narrMs := sceneDurationMs_pos _
    have hblockChain : List.Chain' (· ≤ ·)
        (sr.frames.map (progressValue N i (sceneDurationMs sr.narrMs))) :=
      List.chain'_map_of_chain' _
        (fun a b hab => by
          unfold progressValue
          by_cases htot : (0 : ℚ) < (N : ℚ)
          · refine mul_le_mul_of_nonneg_right ?_ (by norm_num)
            refine (div_le_div_right htot).mpr ?_
            have := frameProgress_mono (sceneDurationMs sr.narrMs) hDpos hab
            linarith
          · have h0 : ((N : ℚ)) = 0 := by
              have := Nat.cast_nonneg (α := ℚ) N
              linarith
            simp [h0]) hchain
    have hblockUB : ∀ x ∈ sr.frames.map (progressValue N i (sceneDurationMs sr.narrMs)),
        x ≤ ((i : ℚ) + 1) / (N : ℚ) * 100 := by
      intro x hx
      rcases List.mem_map.1 hx with ⟨e, _, rfl⟩
      exact progressValue_le N i _ e
    have hblockLB : ∀ x ∈ sr.frames.map (progressValue N i (sceneDurationMs sr.narrMs)),
        ((i : ℚ)) / (N : ℚ) * 100 ≤ x := by
      intro x hx
      rcases List.mem_map.1 hx with ⟨e, he, rfl⟩
      exact progressValue_ge N i _ e hDpos (hnn e he)
    have hcast : ((i : ℚ) + 1) = (((i + 1 : ℕ)) : ℚ) := by push_cast; ring
    have hstep : ((i : ℚ) + 1) / (N : ℚ) * 100 ≤ (((i + 1 : ℕ)) : ℚ) / (N : ℚ) * 100 := by
      rw [hcast]
    refine ⟨?_, ?_, ?_, ?_⟩
    · show List.Chain' (· ≤ ·) (_ ++ _)
      refine List.Chain'.append hblockChain ihChain ?_
      intro x hx y hy
      have hxm : x ∈ sr.frames.map (progressValue N i (sceneDurationMs sr.narrMs)) :=
        List.mem_of_mem_getLast? hx
      have hym : y ∈ exportTrace N (i + 1) rest := List.mem_of_mem_head? hy
      calc x ≤ ((i : ℚ) + 1) / (N : ℚ) * 100 := hblockUB x hxm
        _ = (((i + 1 : ℕ)) : ℚ) / (N : ℚ) * 100 := by rw [hcast]
        _ ≤ y := ihLB y hym
    · intro x hx
      rcases List.mem_append.1 hx with hx | hx
      · exact hblockLB x hx
      · calc ((i : ℚ)) / (N : ℚ) * 100 ≤ (((i + 1 : ℕ)) : ℚ) / (N : ℚ) * 100 := by
              rw [← hcast]
              by_cases htot : (0 : ℚ) < (N : ℚ)
              · refine mul_le_mul_of_nonneg_right ?_ (by norm_num)
                exact (div_le_div_right htot).mpr (by linarith)
              · have h0 : ((N : ℚ)) = 0 := by
                  have := Nat.cast_nonneg (α := ℚ) N
                  linarith
                simp [h0]
          _ ≤ x := ihLB x hx
    · intro x hx
      have hx2 : x ∈ (sr.frames.map (progressValue N i (sceneDurationMs sr.narrMs))
          ++ exportTrace N (i + 1) rest).getLast? := hx
      by_cases hrest : rest = []
      · subst hrest
        rw [show exportTrace N (i + 1) ([] : List SceneRun) = [] from rfl,
          List.append_nil] at hx2
        rw [List.getLast?_map] at hx2
        rcases hfr : sr.frames.getLast? with _ | e
        · rw [hfr] at hx2
          simp at hx2
        · rw [hfr] at hx2
          simp only [Option.map_some', Option.mem_def, Option.some.injEq] at hx2
          subst hx2
          rw [hfr] at hlast
          simp only [Option.getD_some] at hlast
          unfold progressValue
          rw [frameProgress_eq_one _ _ hDpos hlast]
          simp only [List.length_cons, List.length_nil]
          push_cast
          ring
      · have htne : exportTrace N (i + 1) rest ≠ [] := ihNE hrest
        rw [List.getLast?_append_of_ne_nil _ htne] at hx2
        have hxv := ihLast x hx2
        have hlen : i + 1 + rest.length = i + (sr :: rest).length := by
          simp only [List.length_cons]
          omega
        rw [hxv, hlen]
    · intro _
      have hbne : sr.frames.map (progressValue N i (sceneDurationMs sr.narrMs)) ≠ [] := by
        simpa using hne
      intro hcontra
      rcases List.append_eq_nil.mp hcontra with ⟨h1, _⟩
      exact hbne h1

/-- Claim C5: during an export session in which every scene completes normally
(each frame list is time-ordered, nonnegative, and ends with the frame that
reaches the scene duration), the reported progress sequence is monotonically
non-decreasing, every reported value is the source's
((sceneIndex + min(elapsed/duration, 1)) / totalScenes) * 100 — which is
exactly the spec formula (completed + intra) / total — and the final reported
value is exactly 100. -/
theorem export_progress_monotone_complete (runs : List SceneRun)
    (hne : runs ≠ [])
    (hvalid : ∀ sr ∈ runs, sr.frames ≠ [] ∧ List.Chain' (· ≤ ·) sr.frames
      ∧ (∀ e ∈ sr.frames, 0 ≤ e)
      ∧ sceneDurationMs sr.narrMs ≤ sr.frames.getLast?.getD 0) :
    List.Chain' (· ≤ ·) (exportTrace runs.length 0 runs)
    ∧ (exportTrace runs.length 0 runs).getLast? = some 100
    ∧ progressValue
        = fun total i dur e => specProgressPercent total i (frameProgress dur e) := by
  obtain ⟨hchain, _, hlastv, hnonempty⟩ := exportTrace_props runs.length runs 0 hvalid
  refine ⟨hchain, ?_, rfl⟩
  have htne := hnonempty hne
  rcases hfin : (exportTrace runs.length 0 runs).getLast? with _ | x
  · exact absurd (List.getLast?_eq_none_iff.mp hfin) htne
  · have hx := hlastv x (by rw [hfin]; rfl)
    have hlen : runs.length ≠ 0 := by
      simpa using hne
    have hcastne : ((runs.length : ℚ)) ≠ 0 := Nat.cast_ne_zero.mpr hlen
    rw [hx]
    simp [div_self hcastne]

/-- A concrete 2-scene export run used to witness C5: scene 1 without
narration (duration 4000 ms), scene 2 with a 3800 ms narration (4300 ms). -/
def demoRuns : List SceneRun :=
  [⟨none, [0, 1000, 4000]⟩, ⟨some 3800, [0, 2000, 4300]⟩]

/-- Witness for C5 at the concrete run. -/
theorem export_progress_monotone_complete_witness :
    List.Chain' (· ≤ ·) (exportTrace demoRuns.length 0 demoRuns)
    ∧ (exportTrace demoRuns.length 0 demoRuns).getLast? = some 100 := by
  have h := export_progress_monotone_complete demoRuns (by simp [demoRuns]) (by
    intro sr hsr
    simp only [demoRuns, List.mem_cons, List.not_mem_nil, or_false] at hsr
    rcases hsr with rfl | rfl
    · refine ⟨by simp, ?_, ?_, ?_⟩
      · norm_num [List.chain'_cons, List.chain'_singleton]
      · intro e he
        simp only [List.mem_cons, List.not_mem_nil, or_false] at he
        rcases he with rfl | rfl | rfl <;> norm_num
      · norm_num [sceneDurationMs]
    · refine ⟨by simp, ?_, ?_, ?_⟩
      · norm_num [List.chain'_cons, List.chain'_singleton]
      · intro e he
        simp only [List.mem_cons, List.not_mem_nil, or_false] at he
        rcases he with rfl | rfl | rfl <;> norm_num
      · norm_num [sceneDurationMs])
  exact ⟨h.1, h.2.1⟩

/-! ## VideoExporter scene sequencing and image-load gating (playAllScenes)

The scene loop awaits img.onload before starting the scene's narration and
render loop; only a successful load resolves that promise (onerror is never
wired), there is no timeout, and a stalled scene leaves the session neither
aborted nor marked failed.
-/

structure ESc where
  hasAudio : Bool
  deriving DecidableEq

inductive EEv
  | loadSettled (i : ℕ)
  | narrStart (i : ℕ)
  | renderStart (i : ℕ)
  | sceneDone (i : ℕ)
  | recorderStopped
  deriving DecidableEq

structure ERes where
  events : List EEv
  completed : Bool
  aborted : Bool
  failed : Bool
  deriving DecidableEq

/-- Events of one scene iteration once its image load resolves: narration (if
present) starts at the same instant the render loop begins. -/
def sceneBlock (i : ℕ) (sc : ESc) : List EEv :=
  EEv.loadSettled i ::
    ((if sc.hasAudio then [EEv.narrStart i] else [])
      ++ [EEv.renderStart i, EEv.sceneDone i])

/-- The playAllScenes loop over the scenes from index i on, driven by an
image-load oracle: a scene whose image never fires onload suspends the loop
forever (no events, completed/aborted/failed all false); after the last scene
the recorder is stopped and the session completes. -/
def goExport (loads : ℕ → Bool) : ℕ → List ESc → ERes
  | _, [] => ⟨[EEv.recorderStopped], true, false, false⟩
  | i, sc :: rest =>
    if loads i then
      ⟨sceneBlock i sc ++ (goExport loads (i + 1) rest).events,
       (goExport loads (i + 1) rest).completed,
       (goExport loads (i + 1) rest).aborted,
       (goExport loads (i + 1) rest).failed⟩
    else ⟨[], false, false, false⟩

def runExport (scenes : List ESc) (loads : ℕ → Bool) : ERes := goExport loads 0 scenes

theorem goExport_stall (loads : ℕ → Bool) :
    ∀ (scenes : List ESc) (i0 k : ℕ), i0 ≤ k → k < i0 + scenes.length →
      (∀ j, i0 ≤ j → j < k → loads j = true) → loads k = false →
      (goExport loads i0 scenes).completed = false
      ∧ (goExport loads i0 scenes).aborted = false
      ∧ (goExport loads i0 scenes).failed = false
      ∧ (∀ j, k ≤ j →
          EEv.renderStart j ∉ (goExport loads i0 scenes).events
          ∧ EEv.narrStart j ∉ (goExport loads i0 scenes).events) := by
  intro scenes
  induction scenes with
  | nil =>
    intro i0 k h1 h2 _ _
    exact absurd h2 (by simp; omega)
  | cons sc rest ih =>
    intro i0 k h1 h2 h3 h4
    by_cases hik : i0 = k
    · subst hik
      simp only [goExport, h4, Bool.false_eq_true, if_false]
      refine ⟨trivial, trivial, trivial, ?_⟩
      intro j _
      constructor <;> simp
    · have hik2 : i0 < k := lt_of_le_of_ne h1 hik
      have hload : loads i0 = true := h3 i0 le_rfl hik2
      have h2' : k < (i0 + 1) + rest.length := by
        simp only [List.length_cons] at h2
        omega
      have ihres := ih (i0 + 1) k (by omega) h2'
        (fun j hj1 hj2 => h3 j (by omega) hj2) h4
      simp only [goExport, hload, if_true]
      refine ⟨ihres.1, ihres.2.1, ihres.2.2.1, ?_⟩
      intro j hj
      have hji : j ≠ i0 := by omega
      have hblock : EEv.renderStart j ∉ sceneBlock i0 sc
          ∧ EEv.narrStart j ∉ sceneBlock i0 sc := by
        cases hA : sc.hasAudio <;> simp [sceneBlock, hA, hji]
      constructor
      · intro hmem
        rcases List.mem_append.1 hmem with hmem | hmem
        · exact hblock.1 hmem
        · exact (ihres.2.2.2 j hj).1 hmem
      · intro hmem
        rcases List.mem_append.1 hmem with hmem | hmem
        · exact hblock.2 hmem
        · exact (ihres.2.2.2 j hj).2 hmem

theorem goExport_load_first (loads : ℕ → Bool) :
    ∀ (scenes : List ESc) (i0 i : ℕ) (e : EEv),
      (e = EEv.renderStart i ∨ e = EEv.narrStart i) →
      e ∈ (goExport loads i0 scenes).events →
      List.Sublist [EEv.loadSettled i, e] (goExport loads i0 scenes).events := by
  intro scenes
  induction scenes with
  | nil =>
    intro i0 i e he hmem
    simp only [goExport, List.mem_singleton] at hmem
    rcases he with rfl | rfl <;> simp at hmem
  | cons sc rest ih =>
    intro i0 i e he hmem
    by_cases hload : loads i0 = true
    · simp only [goExport, hload, if_true] at hmem ⊢
      rcases List.mem_append.1 hmem with hmem | hmem
      · rcases he with rfl | rfl
        · have hi : i = i0 := by
            cases hA : sc.hasAudio <;> simpa [sceneBlock, hA] using hmem
          subst hi
          have hetail : EEv.renderStart i
              ∈ (if sc.hasAudio then [EEv.narrStart i] else [])
                ++ [EEv.renderStart i, EEv.sceneDone i] := by
            cases hA : sc.hasAudio <;> simp [hA]
          refine List.Sublist.trans ?_ (List.sublist_append_left _ _)
          exact List.Sublist.cons₂ _ (List.singleton_sublist.mpr hetail)
        · cases hA : sc.hasAudio
          · simp [sceneBlock, hA] at hmem
          · have hi : i = i0 := by simpa [sceneBlock, hA] using hmem
            subst hi
            have hetail : EEv.narrStart i
                ∈ (if sc.hasAudio then [EEv.narrStart i] else [])
                  ++ [EEv.renderStart i, EEv.sceneDone i] := by
              simp [hA]
            refine List.Sublist.trans ?_ (List.sublist_append_left _ _)
            exact List.Sublist.cons₂ _ (List.singleton_sublist.mpr hetail)
      · exact List.Sublist.trans (ih (i0 + 1) i e he hmem) (List.sublist_append_right _ _)
    · simp only [Bool.not_eq_true] at hload
      simp [goExport, hload] at hmem

/-- Claim C9: in the export pipeline each scene's render loop and narration
start only after that scene's image load settles successfully (the loop awaits
img.onload, and there is no timeout and no error hook), and when a scene's
image fails to load the run stalls there: no render or narration events occur
for that scene or any later one, while the session is neither aborted nor
marked failed. -/
theorem export_image_load_gating (scenes : List ESc) (loads : ℕ → Bool) (k : ℕ)
    (hk : k < scenes.length)
    (hbefore : ∀ j, j < k → loads j = true)
    (hfail : loads k = false) :
    (runExport scenes loads).aborted = false
    ∧ (runExport scenes loads).failed = false
    ∧ (runExport scenes loads).completed = false
    ∧ (∀ j, k ≤ j →
        EEv.renderStart j ∉ (runExport scenes loads).events
        ∧ EEv.narrStart j ∉ (runExport scenes loads).events)
    ∧ (∀ (loads2 : ℕ → Bool) (i : ℕ) (e : EEv),
        (e = EEv.renderStart i ∨ e = EEv.narrStart i) →
        e ∈ (runExport scenes loads2).events →
        List.Sublist [EEv.loadSettled i, e] (runExport scenes loads2).events) := by
  have h := goExport_stall loads scenes 0 k (Nat.zero_le _) (by omega)
    (fun j _ hj => hbefore j hj) hfail
  exact ⟨h.2.1, h.2.2.1, h.1, h.2.2.2,
    fun loads2 i e he hm => goExport_load_first loads2 scenes 0 i e he hm⟩

/-- Witness for C9: three scenes, the second scene's image never loads. -/
theorem export_image_load_gating_witness :
    (runExport [⟨true⟩, ⟨false⟩, ⟨true⟩] (fun j => j == 0)).aborted = false
    ∧ (runExport [⟨true⟩, ⟨false⟩, ⟨true⟩] (fun j => j == 0)).completed = false
    ∧ List.Sublist [EEv.loadSettled 0, EEv.renderStart 0]
        (runExport [⟨true⟩, ⟨false⟩, ⟨true⟩] (fun j => j == 0)).events := by
  have h := export_image_load_gating [⟨true⟩, ⟨false⟩, ⟨true⟩] (fun j => j == 0) 1
    (by decide)
    (by
      intro j hj
      have hj0 : j = 0 := by omega
      subst hj0
      rfl)
    (by decide)
  exact ⟨h.1, h.2.2.1,
    h.2.2.2.2 (fun j => j == 0) 0 (EEv.renderStart 0) (Or.inl rfl) (by decide)⟩

/-! ## App.handleLoadDraft: draft restoration with per-scene decode fallback -/

/-- A serialized scene during draft restoration: the decoded buffer (absent in
a persisted draft) and the raw base64 narration payload. -/
structure DraftScene where
  id : ℕ
  audioData : Option (List ℚ)
  audioBase64 : Option (List Char)
  deriving DecidableEq

/-- The per-scene decode pipeline used during restoration: decodeBase64 then
decodeAudioData at the default 24000 Hz mono layout. -/
def decodeDraftAudio (payload : List Char) : Option (List ℚ) :=
  (decodeBase64 payload).bind decodeAudioDataMono

/-- One scene of handleLoadDraft's Promise.all: a scene that already has a
decoded buffer is kept; otherwise a present payload is decoded, and a decode
failure is caught and logged so the scene proceeds with no narration. -/
def restoreScene (sc : DraftScene) : DraftScene :=
  match sc.audioData with
  | some _ => sc
  | none =>
    match sc.audioBase64 with
    | none => sc
    | some payload =>
      match decodeDraftAudio payload with
      | some buf => { sc with audioData := some buf }
      | none => sc

/-- handleLoadDraft: restores every scene; no scene's decode failure can
reject the surrounding Promise.all. -/
def handleLoadDraft (scenes : List DraftScene) : List DraftScene :=
  scenes.map restoreScene

/-- Claim C7: restoring a draft whose scenes carry only raw base64 payloads
yields a decoded buffer for every scene whose payload decodes successfully,
while a scene whose payload fails to decode is returned unchanged (logged
only, no narration) — the whole story is still restored: the restore is the
total per-scene map, preserving scene count and identity. -/
theorem draft_restore_spec (scenes : List DraftScene) :
    handleLoadDraft scenes = scenes.map restoreScene
    ∧ (handleLoadDraft scenes).length = scenes.length
    ∧ ∀ sc ∈ scenes,
        (restoreScene sc).id = sc.id
        ∧ (∀ p buf, sc.audioData = none → sc.audioBase64 = some p →
            decodeDraftAudio p = some buf → (restoreScene sc).audioData = some buf)
        ∧ (∀ p, sc.audioData = none → sc.audioBase64 = some p →
            decodeDraftAudio p = none → restoreScene sc = sc) := by
  refine ⟨rfl, List.length_map _ _, ?_⟩
  intro sc _
  refine ⟨?_, ?_, ?_⟩
  · rcases hA : sc.audioData with _ | b0
    · rcases hB : sc.audioBase64 with _ | p0
      · simp [restoreScene, hA, hB]
      · rcases hD : decodeDraftAudio p0 with _ | buf0 <;> simp [restoreScene, hA, hB, hD]
    · simp [restoreScene, hA]
  · intro p buf h1 h2 h3
    simp [restoreScene, h1, h2, h3]
  · intro p h1 h2 h3
    simp [restoreScene, h1, h2, h3]

/-- The C7 witness draft: scene 1 with a valid raw payload, scene 2 with a
malformed payload. -/
def demoDraft : List DraftScene :=
  [⟨1, none, some (encodeBase64 (encodeSamples [1000, -1000]))⟩,
   ⟨2, none, some ['!', '!', '!', '!']⟩]

/-- Witness for C7: the valid payload is restored to its decoded samples, the
malformed one leaves its scene unchanged, and the whole draft survives. -/
theorem draft_restore_spec_witness :
    (handleLoadDraft demoDraft).length = demoDraft.length
    ∧ (restoreScene ⟨1, none, some (encodeBase64 (encodeSamples [1000, -1000]))⟩).audioData
        = some (([1000, -1000] : List Int).map (fun s : Int => (s : ℚ) / 32768))
    ∧ restoreScene ⟨2, none, some ['!', '!', '!', '!']⟩
        = ⟨2, none, some ['!', '!', '!', '!']⟩ := by
  have h := draft_restore_spec demoDraft
  refine ⟨h.2.1, ?_, ?_⟩
  · exact (h.2.2 ⟨1, none, some (encodeBase64 (encodeSamples [1000, -1000]))⟩
      (by simp [demoDraft])).2.1 _ _ rfl rfl (decode_encode_aux [1000, -1000] (by decide))
  · exact (h.2.2 ⟨2, none, some ['!', '!', '!', '!']⟩
      (by simp [demoDraft])).2.2 _ rfl rfl (by decide)

/-! ## StoryEditor.handleSave: progressive degradation on quota errors -/

/-- A scene as handleSave serializes it; the Option payloads carry abstract
byte sizes and audioData marks a decoded buffer on the live story. -/
structure SaveScene where
  textSize : ℕ
  imageData : Option ℕ
  audioBase64 : Option ℕ
  audioData : Option ℕ
  deriving DecidableEq

structure SaveStory where
  titleSize : ℕ
  scenes : List SaveScene
  deriving DecidableEq

inductive StErr
  | quota
  | other
  deriving DecidableEq

inductive SaveStatus
  | saved
  | partialSave
  | errorSave
  deriving DecidableEq

/-- prepareStoryForSave: destructures the decoded audioData away from every
scene in every tier; optionally strips image data and the raw audio payload. -/
def prepareStoryForSave (s : SaveStory) (stripImages stripAudio : Bool) : SaveStory :=
  { s with scenes := s.scenes.map (fun sc =>
      { sc with audioData := none,
                imageData := if stripImages then none else sc.imageData,
                audioBase64 := if stripAudio then none else sc.audioBase64 }) }

/-- handleSave with localStorage.setItem abstracted into a store oracle: try
the full serialization; on a quota error retry with images stripped; if that
also fails retry with images and raw audio both stripped; only if that final
attempt fails report the error status.  A first failure that is not a quota
error reports the error status directly. -/
def handleSave (story : SaveStory) (store : SaveStory → Except StErr Unit) : SaveStatus :=
  match store (prepareStoryForSave story false false) with
  | Except.ok _ => SaveStatus.saved
  | Except.error e =>
    if e = StErr.quota then
      match store (prepareStoryForSave story true false) with
      | Except.ok _ => SaveStatus.partialSave
      | Except.error _ =>
        match store (prepareStoryForSave story true true) with
        | Except.ok _ => SaveStatus.partialSave
        | Except.error _ => SaveStatus.errorSave
    else SaveStatus.errorSave

/-- Claim C8: when the first save fails with a storage-quota error, handleSave
degrades progressively — it retries with image data stripped from every scene
(partial status on success); if that also fails it retries with image data and
raw audio payloads both stripped (partial status on success); only if that
final attempt also fails does it report the error status; and in every tier
the serialized scenes carry no decoded audio buffer. -/
theorem handleSave_progressive_degradation (story : SaveStory)
    (store : SaveStory → Except StErr Unit)
    (hq : store (prepareStoryForSave story false false) = Except.error StErr.quota) :
    (∀ u, store (prepareStoryForSave story true false) = Except.ok u →
      handleSave story store = SaveStatus.partialSave)
    ∧ (∀ e u, store (prepareStoryForSave story true false) = Except.error e →
        store (prepareStoryForSave story true true) = Except.ok u →
        handleSave story store = SaveStatus.partialSave)
    ∧ (∀ e e2, store (prepareStoryForSave story true false) = Except.error e →
        store (prepareStoryForSave story true true) = Except.error e2 →
        handleSave story store = SaveStatus.errorSave)
    ∧ handleSave story store ≠ SaveStatus.saved
    ∧ (∀ b1 b2, ∀ sc ∈ (prepareStoryForSave story b1 b2).scenes, sc.audioData = none) := by
  refine ⟨?_, ?_, ?_, ?_, ?_⟩
  · intro u h2
    simp [handleSave, hq, h2]
  · intro e u h2 h3
    simp [handleSave, hq, h2, h3]
  · intro e e2 h2 h3
    simp [handleSave, hq, h2, h3]
  · cases h2 : store (prepareStoryForSave story true false) with
    | ok u => simp [handleSave, hq, h2]
    | error e =>
      cases h3 : store (prepareStoryForSave story true true) with
      | ok u => simp [handleSave, hq, h2, h3]
      | error e2 => simp [handleSave, hq, h2, h3]
  · intro b1 b2 sc hsc
    rcases List.mem_map.1 hsc with ⟨m, _, rfl⟩
    rfl

/-- The C8 witness: a 10-byte quota; one scene with a 50-byte image, a
3-byte raw payload and a decoded buffer. -/
def sizeOfStory (s : SaveStory) : ℕ :=
  s.titleSize + (s.scenes.map (fun sc =>
    sc.textSize + sc.imageData.getD 0 + sc.audioBase64.getD 0 + sc.audioData.getD 0)).sum

def demoStore : SaveStory → Except StErr Unit := fun s =>
  if sizeOfStory s ≤ 10 then Except.ok () else Except.error StErr.quota

def demoStory : SaveStory := ⟨2, [⟨1, some 50, some 3, some 100⟩]⟩

/-- Witness for C8: the full serialization exceeds the quota, the image-free
retry fits, so the save reports the partial status with buffers stripped. -/
theorem handleSave_progressive_degradation_witness :
    handleSave demoStory demoStore = SaveStatus.partialSave
    ∧ (∀ sc ∈ (prepareStoryForSave demoStory false false).scenes, sc.audioData = none) := by
  have h := handleSave_progressive_degradation demoStory demoStore rfl
  exact ⟨h.1 () rfl, h.2.2.2.2 false false⟩

end Kokostream
